import Mathlib

/-!
Verification development for the `json_automation` repository.

Part 1 embeds `validate_component.py`: a shallow model of the decoded JSON
value space, of the Python semantics the script relies on (`in` membership,
subscripting, `json.load` failure), and of the five validation functions plus
`main`.

Part 2 embeds `components/json_automation/__init__.py`: the lifecycle trigger
class declarations, the configuration schema, and the `to_code` code
generator, as data.

Part 3 models the JSON Automation Engine (loader, table, serializer) from the
specification: the C++ implementation files referenced by the validator are
not part of the source tree, so those definitions follow the spec text.
-/

/-- A decoded JSON value, as produced by Python's `json.load`: null, booleans,
numbers, strings, arrays, and objects (ordered key/value pairs). Numbers are
modelled as integers; no claim depends on numeric semantics. -/
inductive Json where
  | null
  | bool (b : Bool)
  | num (n : Int)
  | str (s : String)
  | arr (elems : List Json)
  | obj (fields : List (String × Json))

/-- Python runtime exceptions that can escape the validator's checks:
`TypeError` (e.g. `'id' in 42`, `data['automations']` on a non-dict) and
`KeyError` (subscripting a dict with a missing key). -/
inductive PyErr where
  | typeError
  | keyError
deriving DecidableEq

/-- Auxiliary for the substring test: does `pat` occur in the character list,
starting at any position? (Structural recursion so that concrete instances
reduce by `rfl`.) -/
def listContainsSub (pat : List Char) : List Char → Bool
  | [] => pat.isEmpty
  | c :: t => pat.isPrefixOf (c :: t) || listContainsSub pat t

/-- Python's substring test `pat in s` for strings: true iff `pat` occurs in
`s` (the empty pattern is always contained). -/
def strContainsSub (s pat : String) : Bool :=
  listContainsSub pat.data s.data

/-- Python's `key in value` for a decoded JSON value: key membership for
dicts, substring for strings, element equality for lists, and `TypeError`
for null/booleans/numbers. -/
def pyContains (key : String) : Json → Except PyErr Bool
  | Json.obj fields => .ok (fields.lookup key).isSome
  | Json.str s => .ok (strContainsSub s key)
  | Json.arr xs => .ok (xs.any fun x => match x with | Json.str t => t == key | _ => false)
  | _ => .error PyErr.typeError

/-- Python's `value[key]` with a string key: dict lookup (`KeyError` when the
key is absent), `TypeError` on every other decoded value. -/
def pySubscript (j : Json) (key : String) : Except PyErr Json :=
  match j with
  | Json.obj fields =>
    match fields.lookup key with
    | some v => .ok v
    | none => .error PyErr.keyError
  | _ => .error PyErr.typeError

/-- The `required_fields` list of `validate_example_json`. -/
def requiredAutomationFields : List String := ["id", "trigger", "actions"]

/-- The message `validate_example_json` prints when automation `i` lacks
required field `f`. -/
def missingFieldMsg (i : Nat) (f : String) : String :=
  s!"  ❌ Automation {i} missing field: {f}"

/-- The inner field loop of `validate_example_json`: the first entry of
`required_fields` for which `field not in automation` holds, if any
(propagating a Python `TypeError` from the membership test). -/
def firstMissingField (el : Json) : List String → Except PyErr (Option String)
  | [] => .ok none
  | f :: fs =>
    match pyContains f el with
    | .error e => .error e
    | .ok true => firstMissingField el fs
    | .ok false => .ok (some f)

/-- The `for i, automation in enumerate(...)` loop of `validate_example_json`:
the first automation index and field name failing the membership test, if
any. -/
def checkAutomations : List Json → Nat → Except PyErr (Option (Nat × String))
  | [], _ => .ok none
  | el :: rest, i =>
    match firstMissingField el requiredAutomationFields with
    | .error e => .error e
    | .ok (some f) => .ok (some (i, f))
    | .ok none => checkAutomations rest (i + 1)

/-- The per-element phase of `validate_example_json`: scan the array, report
the first missing field, or print the success line. -/
def perAutomationResult (items : List Json) : Except PyErr (List String × Bool) :=
  match checkAutomations items 0 with
  | .error e => .error e
  | .ok (some (i, f)) => .ok ([missingFieldMsg i f], false)
  | .ok none =>
    let n := items.length
    .ok ([s!"  ✅ Example JSON structure is valid ({n} automations)"], true)

/-- Lines 115–131 of `validate_component.py`: the structural checks
`validate_example_json` runs on the decoded document (everything after
`json.load` succeeds). Returns the printed lines and the boolean result, or a
propagated Python exception. -/
def checkValue (data : Json) : Except PyErr (List String × Bool) :=
  match pyContains "automations" data with
  | .error e => .error e
  | .ok false => .ok (["  ❌ Missing \x27automations\x27 key"], false)
  | .ok true =>
    match pySubscript data "automations" with
    | .error e => .error e
    | .ok (Json.arr items) => perAutomationResult items
    | .ok _ => .ok (["  ❌ \x27automations\x27 must be an array"], false)

/-- `validate_example_json(filepath)`: file existence, decode (the `decode`
parameter stands for `json.load`, whose `JSONDecodeError` is the caught
branch), then the structural checks. -/
def validate_example_json (decode : String → Except String Json)
    (fs : String → Option String) (filepath : String) :
    Except PyErr (List String × Bool) :=
  let header := s!"Validating example JSON: {filepath}"
  match fs filepath with
  | none => .ok ([header, s!"  ❌ File not found: {filepath}"], false)
  | some content =>
    match decode content with
    | .error e => .ok ([header, s!"  ❌ Invalid JSON: {e}"], false)
    | .ok data =>
      match checkValue data with
      | .error e => .error e
      | .ok (lines, b) => .ok (header :: lines, b)

/-- The `required_imports` list of `validate_python_file`. -/
def required_imports : List String :=
  ["esphome.codegen", "esphome.config_validation", "from esphome import automation"]

/-- The `required_elements` list of `validate_python_file`. -/
def required_elements : List String := ["CONFIG_SCHEMA", "to_code"]

/-- The content checks of `validate_python_file` (substring tests, first
failure wins). -/
def pythonFileChecks (content : String) : List String × Bool :=
  match required_imports.find? fun imp => !strContainsSub content imp with
  | some imp => ([s!"  ❌ Missing import: {imp}"], false)
  | none =>
    match required_elements.find? fun el => !strContainsSub content el with
    | some el => ([s!"  ❌ Missing required element: {el}"], false)
    | none => (["  ✅ Python file structure is valid"], true)

/-- `validate_python_file(filepath)`. -/
def validate_python_file (fs : String → Option String) (filepath : String) :
    Except PyErr (List String × Bool) :=
  match fs filepath with
  | none =>
    .ok ([s!"Validating Python file: {filepath}", s!"  ❌ File not found: {filepath}"], false)
  | some content =>
    let r := pythonFileChecks content
    .ok (s!"Validating Python file: {filepath}" :: r.1, r.2)

/-- The `required_includes` list of `validate_cpp_header`. -/
def required_includes : List String :=
  ["esphome/core/component.h", "esphome/core/automation.h"]

/-- The content checks of `validate_cpp_header`. -/
def cppHeaderChecks (content : String) : List String × Bool :=
  match required_includes.find? fun inc => !strContainsSub content inc with
  | some inc => ([s!"  ❌ Missing include: {inc}"], false)
  | none =>
    if !strContainsSub content "class JsonAutomationComponent : public Component" then
      (["  ❌ Missing main component class"], false)
    else
      (["  ✅ C++ header structure is valid"], true)

/-- `validate_cpp_header(filepath)`. -/
def validate_cpp_header (fs : String → Option String) (filepath : String) :
    Except PyErr (List String × Bool) :=
  match fs filepath with
  | none =>
    .ok ([s!"Validating C++ header: {filepath}", s!"  ❌ File not found: {filepath}"], false)
  | some content =>
    let r := cppHeaderChecks content
    .ok (s!"Validating C++ header: {filepath}" :: r.1, r.2)

/-- The `required_methods` list of `validate_cpp_implementation`. -/
def required_methods : List String :=
  ["setup()", "loop()", "dump_config()", "parse_json_automations"]

/-- The content checks of `validate_cpp_implementation`. -/
def cppImplChecks (content : String) : List String × Bool :=
  match required_methods.find? fun m => !strContainsSub content m with
  | some m => ([s!"  ❌ Missing method: {m}"], false)
  | none => (["  ✅ C++ implementation structure is valid"], true)

/-- `validate_cpp_implementation(filepath)`. -/
def validate_cpp_implementation (fs : String → Option String) (filepath : String) :
    Except PyErr (List String × Bool) :=
  match fs filepath with
  | none =>
    .ok ([s!"Validating C++ implementation: {filepath}",
          s!"  ❌ File not found: {filepath}"], false)
  | some content =>
    let r := cppImplChecks content
    .ok (s!"Validating C++ implementation: {filepath}" :: r.1, r.2)

/-- The `required_sections` list of `validate_example_yaml`. -/
def required_sections : List String :=
  ["esphome:", "json_automation:", "external_components:"]

/-- The content checks of `validate_example_yaml`. -/
def exampleYamlChecks (content : String) : List String × Bool :=
  match required_sections.find? fun sec => !strContainsSub content sec with
  | some sec => ([s!"  ❌ Missing section: {sec}"], false)
  | none => (["  ✅ Example YAML structure is valid"], true)

/-- `validate_example_yaml(filepath)`. -/
def validate_example_yaml (fs : String → Option String) (filepath : String) :
    Except PyErr (List String × Bool) :=
  match fs filepath with
  | none =>
    .ok ([s!"Validating example YAML: {filepath}", s!"  ❌ File not found: {filepath}"], false)
  | some content =>
    let r := exampleYamlChecks content
    .ok (s!"Validating example YAML: {filepath}" :: r.1, r.2)

/-- `main()` of `validate_component.py`: runs the five checks in order,
accumulating results with the non-short-circuiting `&=`, and returns exit
code 0 exactly when all five succeeded. Banner/separator prints are omitted;
the returned list is the concatenation of the five checks' printed lines. A
Python exception escaping a check (only possible in
`validate_example_json`) propagates out of `main`. -/
def mainValidator (decode : String → Except String Json) (fs : String → Option String) :
    Except PyErr (List String × Nat) := do
  let (l1, b1) ← validate_python_file fs "components/json_automation/__init__.py"
  let (l2, b2) ← validate_cpp_header fs "components/json_automation/json_automation.h"
  let (l3, b3) ← validate_cpp_implementation fs "components/json_automation/json_automation.cpp"
  let (l4, b4) ← validate_example_yaml fs "example.yaml"
  let (l5, b5) ← validate_example_json decode fs "example_automation.json"
  pure (l1 ++ l2 ++ l3 ++ l4 ++ l5, if b1 && b2 && b3 && b4 && b5 then 0 else 1)

/-- A trigger class declaration in `components/json_automation/__init__.py`:
the class name and the template argument types of `automation.Trigger`. -/
structure TriggerClassDecl where
  name : String
  templateArgs : List String

/-- The two lifecycle trigger classes declared by the component:
`AutomationLoadedTrigger` and `JsonErrorTrigger`, each
`automation.Trigger.template(cg.std_string)`. -/
def lifecycleTriggerDecls : List TriggerClassDecl :=
  [⟨"AutomationLoadedTrigger", ["std_string"]⟩, ⟨"JsonErrorTrigger", ["std_string"]⟩]

/-- One entry of a validated `on_automation_loaded` / `on_json_error` list:
its generated trigger id. -/
structure TriggerConf where
  trigger_id : Nat

/-- A configuration dict as it reaches `to_code` after `CONFIG_SCHEMA`
validation: the generated component id, the optional `json_data` string, and
the two optional trigger lists (absent key modelled as the empty list, which
is how `config.get(..., [])` reads it). -/
structure Config where
  id : Nat
  json_data : Option String
  on_automation_loaded : List TriggerConf
  on_json_error : List TriggerConf

/-- A code-generation statement emitted by `to_code`: `cg.new_Pvariable` on
the component, `register_component`, `cg.add(var.set_json_data(...))`,
`cg.new_Pvariable` on a trigger (tagged with its class), and
`automation.build_automation(trigger, args, conf)` (tagged with the trigger's
class and the template argument list `[(type, name)]`). -/
inductive Stmt where
  | newPvariable (cid : Nat)
  | registerComponent (cid : Nat)
  | setJsonData (s : String)
  | newTrigger (cls : String) (tid : Nat) (parent : Nat)
  | buildAutomation (cls : String) (tid : Nat) (args : List (String × String))

/-- `to_code(config)` of `components/json_automation/__init__.py`, as the
ordered list of statements it emits. -/
def to_code (config : Config) : List Stmt :=
  [Stmt.newPvariable config.id, Stmt.registerComponent config.id]
  ++ (match config.json_data with
      | some s => [Stmt.setJsonData s]
      | none => [])
  ++ (config.on_automation_loaded.flatMap fun conf =>
      [Stmt.newTrigger "AutomationLoadedTrigger" conf.trigger_id config.id,
       Stmt.buildAutomation "AutomationLoadedTrigger" conf.trigger_id
         [("std_string", "data")]])
  ++ (config.on_json_error.flatMap fun conf =>
      [Stmt.newTrigger "JsonErrorTrigger" conf.trigger_id config.id,
       Stmt.buildAutomation "JsonErrorTrigger" conf.trigger_id
         [("std_string", "error")]])

/-- Does a statement assign initial JSON data (`var.set_json_data(...)`)? -/
def isSetJsonDataStmt : Stmt → Bool
  | Stmt.setJsonData _ => true
  | _ => false

/-- A `build_automation` statement for a lifecycle trigger carries exactly
one `std_string` template argument, named `data` for
`AutomationLoadedTrigger` and `error` for `JsonErrorTrigger`; every other
statement is unconstrained. -/
def lifecycleArgsOk : Stmt → Bool
  | Stmt.buildAutomation cls _ args =>
    (cls == "AutomationLoadedTrigger" && args == [("std_string", "data")])
    || (cls == "JsonErrorTrigger" && args == [("std_string", "error")])
  | _ => true

/-- A raw (pre-validation) configuration value: a string, a validated
automation list (abstracted to the generated trigger ids), or anything
else. -/
inductive RawValue where
  | str (s : String)
  | autoList (ids : List Nat)
  | other

/-- `CONFIG_SCHEMA` of `components/json_automation/__init__.py` as a checker
on raw key/value configurations: `json_data` is an optional string,
`on_automation_loaded` / `on_json_error` are optional automation lists, no
key is required (the component ID is generated), and unknown keys are
rejected. The keys inherited from `cv.COMPONENT_SCHEMA` (an external ESPHome
schema) are omitted. -/
def configSchemaAccepts (entries : List (String × RawValue)) : Bool :=
  entries.all fun e =>
    (e.1 == "json_data" && (match e.2 with | RawValue.str _ => true | _ => false))
    || ((e.1 == "on_automation_loaded" || e.1 == "on_json_error")
        && (match e.2 with | RawValue.autoList _ => true | _ => false))

/-- The configuration `to_code` receives for a validated raw configuration:
`json_data` present iff the raw key is, trigger lists defaulting to empty. -/
def parseConfig (entries : List (String × RawValue)) (cid : Nat) : Config :=
  ⟨cid,
   (match entries.lookup "json_data" with
    | some (RawValue.str s) => some s
    | _ => none),
   (match entries.lookup "on_automation_loaded" with
    | some (RawValue.autoList ids) => ids.map fun tid => ⟨tid⟩
    | _ => []),
   (match entries.lookup "on_json_error" with
    | some (RawValue.autoList ids) => ids.map fun tid => ⟨tid⟩
    | _ => [])⟩

namespace Engine

/-- Modelled from the spec: one executable step of an automation — a
non-empty `kind` tag plus verbatim key/value parameters (§3). The C++
engine implementing this is not part of the source tree. -/
structure Action where
  kind : String
  parameters : List (String × Json)

/-- Modelled from the spec: a named ordered script — `id`, an opaque
`trigger` value, and an ordered action list (§3). -/
structure Automation where
  id : String
  trigger : Json
  actions : List Action

/-- Modelled from the spec: the Automation Table, a collection of
automations keyed by `id` (§3). Represented as the list of automations in
insertion order, with unique ids as an invariant of every successful load. -/
abbrev Table := List Automation

/-- Modelled from the spec: Table insert with last-write-wins — a duplicate
id silently replaces the earlier automation (§4.3 step 4). -/
def insertAuto (t : Table) (a : Automation) : Table :=
  if t.any fun b => b.id == a.id then
    t.map fun b => if b.id == a.id then a else b
  else
    t ++ [a]

/-- Modelled from the spec: Loader validation of one action object — an
object with a non-empty string `kind` field, all other fields becoming
`parameters` verbatim (§4.3 step 4). -/
def parseAction (j : Json) : Option Action :=
  match j with
  | Json.obj fields =>
    match fields.lookup "kind" with
    | some (Json.str k) =>
      if k == "" then none
      else some ⟨k, fields.filter fun p => p.1 != "kind"⟩
    | _ => none
  | _ => none

/-- Modelled from the spec: Loader validation of an action array, in order,
failing on the first malformed action. -/
def parseActions : List Json → Option (List Action)
  | [] => some []
  | j :: rest =>
    match parseAction j with
    | none => none
    | some a =>
      match parseActions rest with
      | none => none
      | some as => some (a :: as)

/-- Modelled from the spec: Loader validation of one automation element — an
object with a required string `id`, a `trigger` of any shape defaulting to
null when absent, and an `actions` array treated as empty when absent
(§4.3 step 4). -/
def parseAutomation (j : Json) : Option Automation :=
  match j with
  | Json.obj fields =>
    match fields.lookup "id" with
    | some (Json.str s) =>
      let trig := (fields.lookup "trigger").getD Json.null
      match fields.lookup "actions" with
      | none => some ⟨s, trig, []⟩
      | some (Json.arr xs) =>
        (match parseActions xs with
         | some as => some ⟨s, trig, as⟩
         | none => none)
      | some _ => none
    | _ => none
  | _ => none

/-- Modelled from the spec: the Loader's walk over the `automations` array —
build the new table element by element (last-write-wins inserts), aborting
the whole load with an error naming the offending index on the first
malformed element (§4.3 step 4). -/
def loadAutomations : Table → Nat → List Json → Except String Table
  | t, _, [] => .ok t
  | t, i, j :: rest =>
    match parseAutomation j with
    | some a => loadAutomations (insertAuto t a) (i + 1) rest
    | none => .error s!"automation {i}: missing or malformed field"

/-- Modelled from the spec: `load` on an already-decoded document — the root
must be an object with an `automations` array (§4.3 steps 2–4); a successful
load returns the fully-built new table. -/
def loadDoc (doc : Json) : Except String Table :=
  match doc with
  | Json.obj fields =>
    match fields.lookup "automations" with
    | some (Json.arr items) => loadAutomations [] 0 items
    | _ => .error "missing or malformed \x27automations\x27 array"
  | _ => .error "missing or malformed \x27automations\x27 array"

/-- Modelled from the spec: Serializer for one action — its `kind` plus its
`parameters` merged at the same object level (§4.4). -/
def serializeAction (a : Action) : Json :=
  Json.obj (("kind", Json.str a.kind) :: a.parameters)

/-- Modelled from the spec: Serializer for one automation —
`{"id", "trigger", "actions"}` (§4.4). -/
def serializeAutomation (a : Automation) : Json :=
  Json.obj [("id", Json.str a.id), ("trigger", a.trigger),
            ("actions", Json.arr (a.actions.map serializeAction))]

/-- Modelled from the spec: Serializer for the Table —
`{"automations": [...]}` (§4.4). -/
def serializeTable (t : Table) : Json :=
  Json.obj [("automations", Json.arr (t.map serializeAutomation))]

/-- Modelled from the spec: the result of `load` (§4.3). -/
inductive LoadResult where
  | loaded (count : Nat)
  | loadError (msg : String)

/-- Modelled from the spec: the two lifecycle event kinds the core emits,
each carrying one string payload — `automation_loaded(raw_text)` and
`json_error(message)` (§6). -/
inductive Event where
  | automationLoaded (data : String)
  | jsonError (error : String)

/-- Modelled from the spec: a full `load` call — decode, validate, swap in
the new table on success (leaving the old table untouched on failure), and
fire exactly one lifecycle event (§4.3). Returns the live table after the
call, the `LoadResult`, and the event fired. -/
def engineLoad (decode : String → Except String Json) (old : Table)
    (text : String) : Table × LoadResult × Event :=
  match decode text with
  | .error e =>
    (old, LoadResult.loadError s!"JSON syntax error: {e}",
     Event.jsonError s!"JSON syntax error: {e}")
  | .ok doc =>
    match loadDoc doc with
    | .error m => (old, LoadResult.loadError m, Event.jsonError m)
    | .ok t => (t, LoadResult.loaded t.length, Event.automationLoaded text)

/-- An action is well-formed when its kind is non-empty and no parameter key
collides with the reserved `kind` key — exactly the shape the Loader
produces. -/
def ActionWF (a : Action) : Prop :=
  a.kind ≠ "" ∧ ∀ p ∈ a.parameters, p.1 ≠ "kind"

/-- An automation is well-formed when all its actions are. -/
def AutomationWF (a : Automation) : Prop :=
  ∀ act ∈ a.actions, ActionWF act

/-- A table is well-formed when its ids are pairwise distinct and all its
automations are well-formed — the invariant of every table a successful load
builds. -/
def TableWF (t : Table) : Prop :=
  (t.map fun a => a.id).Nodup ∧ ∀ a ∈ t, AutomationWF a

end Engine

namespace Engine

lemma parseAction_of_wf (a : Action) (h : ActionWF a) :
    parseAction (serializeAction a) = some a := by
  obtain ⟨h1, h2⟩ := h
  have hk : (a.kind == "") = false := beq_eq_false_iff_ne.mpr h1
  have hf : a.parameters.filter (fun p => p.1 != "kind") = a.parameters := by
    apply List.filter_eq_self.mpr
    intro p hp
    exact bne_iff_ne.mpr (h2 p hp)
  simp [serializeAction, parseAction, List.lookup, hk, List.filter, hf]

lemma parseActions_of_wf (as : List Action) (h : ∀ a ∈ as, ActionWF a) :
    parseActions (as.map serializeAction) = some as := by
  induction as with
  | nil => rfl
  | cons a rest ih =>
    have ha := parseAction_of_wf a (h a (List.mem_cons_self a rest))
    have hr := ih fun b hb => h b (List.mem_cons_of_mem a hb)
    simp [parseActions, ha, hr]

lemma parseAutomation_of_wf (a : Automation) (h : AutomationWF a) :
    parseAutomation (serializeAutomation a) = some a := by
  have hp := parseActions_of_wf a.actions h
  simp [serializeAutomation, parseAutomation, List.lookup, hp]

lemma insertAuto_of_not_mem (t : Table) (a : Automation)
    (h : a.id ∉ t.map fun b => b.id) : insertAuto t a = t ++ [a] := by
  unfold insertAuto
  rw [if_neg]
  intro hc
  obtain ⟨b, hb, hbe⟩ := List.any_eq_true.mp hc
  exact h (List.mem_map.mpr ⟨b, hb, eq_of_beq hbe⟩)

lemma parseAction_wf (j : Json) (a : Action) (h : parseAction j = some a) :
    ActionWF a := by
  cases j
  case obj fields =>
    simp only [parseAction] at h
    cases hk : fields.lookup "kind" with
    | none => rw [hk] at h; simp at h
    | some v =>
      rw [hk] at h
      cases v
      case str k =>
        dsimp only at h
        by_cases hke : (k == "") = true
        · simp [hke] at h
        · simp only [hke, if_false, Bool.false_eq_true] at h
          obtain rfl := Option.some.inj h
          refine ⟨fun he => hke (beq_iff_eq.mpr he), fun p hp => ?_⟩
          have hp2 : p ∈ List.filter (fun q => q.1 != "kind") fields := hp
          exact bne_iff_ne.mp (List.mem_filter.mp hp2).2
      all_goals simp at h
  all_goals simp [parseAction] at h

lemma parseActions_wf (js : List Json) (as : List Action)
    (h : parseActions js = some as) : ∀ a ∈ as, ActionWF a := by
  induction js generalizing as with
  | nil =>
    simp only [parseActions] at h
    obtain rfl := Option.some.inj h
    simp
  | cons j rest ih =>
    simp only [parseActions] at h
    cases hpa : parseAction j with
    | none => rw [hpa] at h; simp at h
    | some a0 =>
      rw [hpa] at h
      cases hpr : parseActions rest with
      | none => rw [hpr] at h; simp at h
      | some tl =>
        rw [hpr] at h
        simp only [Option.some.injEq] at h
        subst h
        intro b hb
        rcases List.mem_cons.mp hb with rfl | hbtl
        · exact parseAction_wf j b hpa
        · exact ih tl hpr b hbtl

lemma parseAutomation_wf (j : Json) (a : Automation)
    (h : parseAutomation j = some a) : AutomationWF a := by
  cases j
  case obj fields =>
    simp only [parseAutomation] at h
    cases hid : fields.lookup "id" with
    | none => rw [hid] at h; simp at h
    | some v =>
      rw [hid] at h
      cases v
      case str s =>
        dsimp only at h
        cases hac : fields.lookup "actions" with
        | none =>
          rw [hac] at h
          dsimp only at h
          simp only [Option.some.injEq] at h
          subst h
          intro act hact
          simp at hact
        | some w =>
          rw [hac] at h
          cases w
          case arr xs =>
            dsimp only at h
            cases hpx : parseActions xs with
            | none => rw [hpx] at h; simp at h
            | some as =>
              rw [hpx] at h
              dsimp only at h
              simp only [Option.some.injEq] at h
              subst h
              exact parseActions_wf xs as hpx
          all_goals simp at h
      all_goals simp at h
  all_goals simp [parseAutomation] at h

lemma insertAuto_wf (t : Table) (a : Automation) (ht : TableWF t)
    (ha : AutomationWF a) : TableWF (insertAuto t a) := by
  obtain ⟨hnd, hmem⟩ := ht
  unfold insertAuto
  by_cases hany : (t.any fun b => b.id == a.id) = true
  · rw [if_pos hany]
    constructor
    · have hids : ((t.map fun b => if b.id == a.id then a else b).map fun x => x.id)
          = t.map fun b => b.id := by
        rw [List.map_map]
        apply List.map_congr_left
        intro b _
        simp only [Function.comp_apply]
        by_cases hb : (b.id == a.id) = true
        · rw [if_pos hb, eq_of_beq hb]
        · rw [if_neg hb]
      rw [hids]
      exact hnd
    · intro x hx
      obtain ⟨b, hb, hxb⟩ := List.mem_map.mp hx
      by_cases hbe : (b.id == a.id) = true
      · rw [if_pos hbe] at hxb
        exact hxb ▸ ha
      · rw [if_neg hbe] at hxb
        exact hxb ▸ hmem b hb
  · rw [if_neg hany]
    constructor
    · have hnm : a.id ∉ t.map fun b => b.id := by
        intro hin
        obtain ⟨b, hb, hbe⟩ := List.mem_map.mp hin
        exact hany (List.any_eq_true.mpr ⟨b, hb, beq_iff_eq.mpr hbe⟩)
      rw [List.map_append]
      simp only [List.map_cons, List.map_nil]
      rw [List.nodup_append]
      refine ⟨hnd, List.nodup_singleton _, ?_⟩
      intro x hx hx2
      simp at hx2
      exact hnm (hx2 ▸ hx)
    · intro x hx
      rcases List.mem_append.mp hx with hxt | hxa
      · exact hmem x hxt
      · simp at hxa
        exact hxa ▸ ha

lemma loadAutomations_wf (js : List Json) (acc : Table) (i : Nat) (t : Table)
    (h : loadAutomations acc i js = .ok t) (hacc : TableWF acc) : TableWF t := by
  induction js generalizing acc i with
  | nil =>
    simp only [loadAutomations] at h
    obtain rfl := Except.ok.inj h
    exact hacc
  | cons j rest ih =>
    simp only [loadAutomations] at h
    cases hpa : parseAutomation j with
    | none => rw [hpa] at h; simp at h
    | some a =>
      rw [hpa] at h
      exact ih (insertAuto acc a) (i + 1) h
        (insertAuto_wf acc a hacc (parseAutomation_wf j a hpa))

lemma loadDoc_wf (doc : Json) (t : Table) (h : loadDoc doc = .ok t) : TableWF t := by
  cases doc
  case obj fields =>
    simp only [loadDoc] at h
    cases hl : fields.lookup "automations" with
    | none => rw [hl] at h; simp at h
    | some v =>
      rw [hl] at h
      cases v
      case arr items =>
        exact loadAutomations_wf items [] 0 t h ⟨List.nodup_nil, by simp⟩
      all_goals simp at h
  all_goals simp [loadDoc] at h

lemma loadAutomations_serialized (rest : Table) :
    ∀ (acc : Table) (i : Nat),
      (∀ a ∈ rest, AutomationWF a) →
      (((acc ++ rest).map fun a => a.id).Nodup) →
      loadAutomations acc i (rest.map serializeAutomation) = .ok (acc ++ rest) := by
  induction rest with
  | nil => intro acc i _ _; simp [loadAutomations]
  | cons a rest ih =>
    intro acc i h1 h2
    have hwf := h1 a (List.mem_cons_self a rest)
    have hnm : a.id ∉ acc.map fun b => b.id := by
      rw [List.map_append] at h2
      obtain ⟨_, _, hdisj⟩ := List.nodup_append.mp h2
      intro hin
      exact hdisj hin (by simp)
    simp only [List.map_cons, loadAutomations, parseAutomation_of_wf a hwf]
    rw [insertAuto_of_not_mem acc a hnm]
    have h2b : (((acc ++ [a]) ++ rest).map fun b => b.id).Nodup := by
      rw [List.append_assoc, List.singleton_append]
      exact h2
    rw [ih (acc ++ [a]) (i + 1) (fun b hb => h1 b (List.mem_cons_of_mem a hb)) h2b,
        List.append_assoc, List.singleton_append]

end Engine

lemma checkValue_nokey (fields : List (String × Json))
    (h : fields.lookup "automations" = none) :
    checkValue (Json.obj fields)
      = .ok (["  ❌ Missing \x27automations\x27 key"], false) := by
  simp [checkValue, pyContains, h]

lemma checkValue_notarr (fields : List (String × Json)) (v : Json)
    (h : fields.lookup "automations" = some v) (hv : ∀ xs, v ≠ Json.arr xs) :
    checkValue (Json.obj fields)
      = .ok (["  ❌ \x27automations\x27 must be an array"], false) := by
  simp only [checkValue, pyContains, pySubscript, h, Option.isSome_some]

lemma checkValue_arr (fields : List (String × Json)) (autos : List Json)
    (h : fields.lookup "automations" = some (Json.arr autos)) :
    checkValue (Json.obj fields) = perAutomationResult autos := by
  simp [checkValue, pyContains, pySubscript, h]

lemma firstMissingField_spec (el : Json) :
    ∀ (fl : List String) (f : String), firstMissingField el fl = .ok (some f) →
      f ∈ fl ∧ pyContains f el = .ok false := by
  intro fl
  induction fl with
  | nil => intro f h; simp [firstMissingField] at h
  | cons g gs ih =>
    intro f h
    simp only [firstMissingField] at h
    cases hc : pyContains g el with
    | error e => rw [hc] at h; simp at h
    | ok b =>
      rw [hc] at h
      cases b
      · obtain rfl : g = f := by simpa using h
        exact ⟨List.mem_cons_self g gs, hc⟩
      · obtain ⟨hm, hp⟩ := ih f h
        exact ⟨List.mem_cons_of_mem g hm, hp⟩

lemma checkAutomations_spec (js : List Json) :
    ∀ (i k : Nat) (f : String), checkAutomations js i = .ok (some (k, f)) →
      i ≤ k ∧ ∃ el, js.get? (k - i) = some el ∧ f ∈ requiredAutomationFields
        ∧ pyContains f el = .ok false := by
  induction js with
  | nil => intro i k f h; simp [checkAutomations] at h
  | cons el rest ih =>
    intro i k f h
    simp only [checkAutomations] at h
    cases hfm : firstMissingField el requiredAutomationFields with
    | error e => rw [hfm] at h; simp at h
    | ok o =>
      rw [hfm] at h
      cases o with
      | some g =>
        have hkf : i = k ∧ g = f := by simpa using h
        obtain ⟨rfl, rfl⟩ := hkf
        obtain ⟨hm, hp⟩ := firstMissingField_spec el requiredAutomationFields g hfm
        exact ⟨le_refl i, el, by simp, hm, hp⟩
      | none =>
        obtain ⟨hik, el2, hget, hm, hp⟩ := ih (i + 1) k f h
        refine ⟨by omega, el2, ?_, hm, hp⟩
        have hsub : k - i = (k - (i + 1)) + 1 := by omega
        rw [hsub, List.get?_cons_succ]
        exact hget

lemma checkAutomations_append (pre js : List Json) :
    ∀ i, checkAutomations pre i = .ok none →
      checkAutomations (pre ++ js) i = checkAutomations js (i + pre.length) := by
  induction pre with
  | nil => intro i _; simp
  | cons el rest ih =>
    intro i h
    simp only [checkAutomations, List.cons_append] at h ⊢
    cases hfm : firstMissingField el requiredAutomationFields with
    | error e => rw [hfm] at h; simp at h
    | ok o =>
      rw [hfm] at h
      cases o with
      | some g => simp at h
      | none =>
        dsimp only at h ⊢
        rw [List.append_eq, ih (i + 1) h]
        have hlen : i + 1 + rest.length = i + (el :: rest).length := by
          simp [List.length_cons]
          omega
        rw [hlen]

lemma validate_python_file_header (fs : String → Option String) (p : String)
    (l : List String) (b : Bool) (h : validate_python_file fs p = .ok (l, b)) :
    s!"Validating Python file: {p}" ∈ l := by
  unfold validate_python_file at h
  cases hfs : fs p with
  | none =>
    rw [hfs] at h
    simp only [Except.ok.injEq, Prod.mk.injEq] at h
    obtain ⟨h1, _⟩ := h
    subst h1
    simp
  | some c =>
    rw [hfs] at h
    simp only [Except.ok.injEq, Prod.mk.injEq] at h
    obtain ⟨h1, _⟩ := h
    subst h1
    exact List.mem_cons_self _ _

lemma validate_cpp_header_header (fs : String → Option String) (p : String)
    (l : List String) (b : Bool) (h : validate_cpp_header fs p = .ok (l, b)) :
    s!"Validating C++ header: {p}" ∈ l := by
  unfold validate_cpp_header at h
  cases hfs : fs p with
  | none =>
    rw [hfs] at h
    simp only [Except.ok.injEq, Prod.mk.injEq] at h
    obtain ⟨h1, _⟩ := h
    subst h1
    simp
  | some c =>
    rw [hfs] at h
    simp only [Except.ok.injEq, Prod.mk.injEq] at h
    obtain ⟨h1, _⟩ := h
    subst h1
    exact List.mem_cons_self _ _

lemma validate_cpp_implementation_header (fs : String → Option String) (p : String)
    (l : List String) (b : Bool) (h : validate_cpp_implementation fs p = .ok (l, b)) :
    s!"Validating C++ implementation: {p}" ∈ l := by
  unfold validate_cpp_implementation at h
  cases hfs : fs p with
  | none =>
    rw [hfs] at h
    simp only [Except.ok.injEq, Prod.mk.injEq] at h
    obtain ⟨h1, _⟩ := h
    subst h1
    simp
  | some c =>
    rw [hfs] at h
    simp only [Except.ok.injEq, Prod.mk.injEq] at h
    obtain ⟨h1, _⟩ := h
    subst h1
    exact List.mem_cons_self _ _

lemma validate_example_yaml_header (fs : String → Option String) (p : String)
    (l : List String) (b : Bool) (h : validate_example_yaml fs p = .ok (l, b)) :
    s!"Validating example YAML: {p}" ∈ l := by
  unfold validate_example_yaml at h
  cases hfs : fs p with
  | none =>
    rw [hfs] at h
    simp only [Except.ok.injEq, Prod.mk.injEq] at h
    obtain ⟨h1, _⟩ := h
    subst h1
    simp
  | some c =>
    rw [hfs] at h
    simp only [Except.ok.injEq, Prod.mk.injEq] at h
    obtain ⟨h1, _⟩ := h
    subst h1
    exact List.mem_cons_self _ _

lemma validate_example_json_header (decode : String → Except String Json)
    (fs : String → Option String) (p : String) (l : List String) (b : Bool)
    (h : validate_example_json decode fs p = .ok (l, b)) :
    s!"Validating example JSON: {p}" ∈ l := by
  unfold validate_example_json at h
  cases hfs : fs p with
  | none =>
    rw [hfs] at h
    simp only [Except.ok.injEq, Prod.mk.injEq] at h
    obtain ⟨h1, _⟩ := h
    subst h1
    simp
  | some c =>
    rw [hfs] at h
    dsimp only at h
    cases hd : decode c with
    | error e =>
      rw [hd] at h
      simp only [Except.ok.injEq, Prod.mk.injEq] at h
      obtain ⟨h1, _⟩ := h
      subst h1
      simp
    | ok data =>
      rw [hd] at h
      dsimp only at h
      cases hv : checkValue data with
      | error e => rw [hv] at h; simp at h
      | ok pr =>
        obtain ⟨lines, bb⟩ := pr
        rw [hv] at h
        simp only [Except.ok.injEq, Prod.mk.injEq] at h
        obtain ⟨h1, _⟩ := h
        subst h1
        exact List.mem_cons_self _ _

lemma flatMapPairAll (p : Stmt → Bool) (cls : String) (args : List (String × String))
    (cid : Nat) (h1 : ∀ tid, p (Stmt.newTrigger cls tid cid) = true)
    (h2 : ∀ tid, p (Stmt.buildAutomation cls tid args) = true) :
    ∀ l : List TriggerConf,
      ((l.flatMap fun conf =>
        [Stmt.newTrigger cls conf.trigger_id cid,
         Stmt.buildAutomation cls conf.trigger_id args]).all p) = true := by
  intro l
  induction l with
  | nil => rfl
  | cons c cs ih =>
    have hstep : ((c :: cs).flatMap fun conf =>
        [Stmt.newTrigger cls conf.trigger_id cid,
         Stmt.buildAutomation cls conf.trigger_id args])
      = [Stmt.newTrigger cls c.trigger_id cid,
         Stmt.buildAutomation cls c.trigger_id args]
        ++ (cs.flatMap fun conf =>
          [Stmt.newTrigger cls conf.trigger_id cid,
           Stmt.buildAutomation cls conf.trigger_id args]) := rfl
    rw [hstep, List.all_append, ih]
    simp [h1 c.trigger_id, h2 c.trigger_id]

lemma flatMapPairAnyFalse (p : Stmt → Bool) (cls : String)
    (args : List (String × String)) (cid : Nat)
    (h1 : ∀ tid, p (Stmt.newTrigger cls tid cid) = false)
    (h2 : ∀ tid, p (Stmt.buildAutomation cls tid args) = false) :
    ∀ l : List TriggerConf,
      ((l.flatMap fun conf =>
        [Stmt.newTrigger cls conf.trigger_id cid,
         Stmt.buildAutomation cls conf.trigger_id args]).any p) = false := by
  intro l
  induction l with
  | nil => rfl
  | cons c cs ih =>
    have hstep : ((c :: cs).flatMap fun conf =>
        [Stmt.newTrigger cls conf.trigger_id cid,
         Stmt.buildAutomation cls conf.trigger_id args])
      = [Stmt.newTrigger cls c.trigger_id cid,
         Stmt.buildAutomation cls c.trigger_id args]
        ++ (cs.flatMap fun conf =>
          [Stmt.newTrigger cls conf.trigger_id cid,
           Stmt.buildAutomation cls conf.trigger_id args]) := rfl
    rw [hstep, List.any_append, ih]
    simp [h1 c.trigger_id, h2 c.trigger_id]

/-- A non-object automations element makes the membership test raise
`TypeError`, which `validate_example_json` does not catch: the checks
propagate the exception instead of returning False. -/
lemma checkValue_typeError_on_num_element :
    checkValue (Json.obj [("automations", Json.arr [Json.num 3])])
      = .error PyErr.typeError := rfl

/-- C1 (counterexample): an automations element that is an object with a
string `id` but no `trigger` field is not accepted by
`validate_example_json`; the check returns False with a missing-field
message, contradicting the claim that trigger/actions absence is not a
validation error. -/
theorem C1_counterexample :
    checkValue (Json.obj [("automations", Json.arr [Json.obj [("id", Json.str "a")]])])
      = .ok ([missingFieldMsg 0 "trigger"], false) := rfl

/-- C1 (amended): `validate_example_json` treats `trigger` and `actions` as
required. At whatever index `k = pre.length` an element occurs (all earlier
elements passing the scan): an object element with a string `id` but no
`trigger` field is rejected with a message naming `k` and `trigger`, and one
with `id` and `trigger` present but no `actions` field is rejected with a
message naming `k` and `actions`. The spec-modelled engine Loader instead
accepts an element without `actions` — whether or not `trigger` is present —
defaulting trigger to null and actions to the empty list. -/
theorem C1_theorem :
    (∀ (pre rest : List Json) (fields : List (String × Json)) (s : String),
      checkAutomations pre 0 = .ok none →
      fields.lookup "id" = some (Json.str s) →
      fields.lookup "trigger" = none →
      checkValue (Json.obj [("automations", Json.arr (pre ++ Json.obj fields :: rest))])
        = .ok ([missingFieldMsg pre.length "trigger"], false))
    ∧ (∀ (pre rest : List Json) (fields : List (String × Json)) (s : String) (v : Json),
      checkAutomations pre 0 = .ok none →
      fields.lookup "id" = some (Json.str s) →
      fields.lookup "trigger" = some v →
      fields.lookup "actions" = none →
      checkValue (Json.obj [("automations", Json.arr (pre ++ Json.obj fields :: rest))])
        = .ok ([missingFieldMsg pre.length "actions"], false))
    ∧ (∀ (fields : List (String × Json)) (s : String),
      fields.lookup "id" = some (Json.str s) →
      fields.lookup "actions" = none →
      Engine.parseAutomation (Json.obj fields)
        = some ⟨s, (fields.lookup "trigger").getD Json.null, []⟩) := by
  refine ⟨?_, ?_, ?_⟩
  · intro pre rest fields s hpre hid htr
    rw [checkValue_arr [("automations", Json.arr (pre ++ Json.obj fields :: rest))]
      (pre ++ Json.obj fields :: rest) rfl]
    have hscan : checkAutomations (pre ++ Json.obj fields :: rest) 0
        = .ok (some (pre.length, "trigger")) := by
      rw [checkAutomations_append pre (Json.obj fields :: rest) 0 hpre]
      simp [checkAutomations, firstMissingField, requiredAutomationFields,
        pyContains, hid, htr]
    simp [perAutomationResult, hscan]
  · intro pre rest fields s v hpre hid htr hac
    rw [checkValue_arr [("automations", Json.arr (pre ++ Json.obj fields :: rest))]
      (pre ++ Json.obj fields :: rest) rfl]
    have hscan : checkAutomations (pre ++ Json.obj fields :: rest) 0
        = .ok (some (pre.length, "actions")) := by
      rw [checkAutomations_append pre (Json.obj fields :: rest) 0 hpre]
      simp [checkAutomations, firstMissingField, requiredAutomationFields,
        pyContains, hid, htr, hac]
    simp [perAutomationResult, hscan]
  · intro fields s hid hac
    simp [Engine.parseAutomation, hid, hac]

/-- C1 (witness): an element `{"id": "a"}` at index 1 behind a passing
element is rejected naming index 1 and `trigger`; an element
`{"id": "b", "trigger": null}` at index 0 is rejected naming `actions`; the
spec-modelled Loader accepts `{"id": "a"}` with trigger null and no
actions. -/
theorem C1_witness :
    checkValue (Json.obj [("automations", Json.arr
      [Json.obj [("id", Json.str "p"), ("trigger", Json.null), ("actions", Json.arr [])],
       Json.obj [("id", Json.str "a")]])])
      = .ok ([missingFieldMsg 1 "trigger"], false)
    ∧ checkValue (Json.obj [("automations", Json.arr
        [Json.obj [("id", Json.str "b"), ("trigger", Json.null)]])])
      = .ok ([missingFieldMsg 0 "actions"], false)
    ∧ Engine.parseAutomation (Json.obj [("id", Json.str "a")])
        = some ⟨"a", Json.null, []⟩ :=
  ⟨C1_theorem.1
      [Json.obj [("id", Json.str "p"), ("trigger", Json.null), ("actions", Json.arr [])]]
      [] [("id", Json.str "a")] "a" rfl rfl rfl,
   C1_theorem.2.1 [] [] [("id", Json.str "b"), ("trigger", Json.null)] "b"
      Json.null rfl rfl rfl rfl,
   C1_theorem.2.2 [("id", Json.str "a")] "a" rfl rfl⟩

/-- C2 (counterexample): an element whose three required fields are present
but of the wrong shape (`id` a number, `actions` a string) is accepted by
`validate_example_json` — the claim that any wrong-shaped field aborts
validation with a failure outcome is false: only field *presence* is
checked. -/
theorem C2_counterexample :
    checkValue (Json.obj [("automations", Json.arr
      [Json.obj [("id", Json.num 5), ("trigger", Json.null), ("actions", Json.str "x")]])])
      = .ok (["  ✅ Example JSON structure is valid (1 automations)"], true) := rfl

/-- C2 (amended): when the element scan finds its first missing required
field — index `k`, field `f`, genuinely absent from element `k` under
Python's membership test — validation returns False with a message naming
`k` and `f`. Wrong-shaped but present fields are not detected. -/
theorem C2_theorem (autos : List Json) (k : Nat) (f : String)
    (h : checkAutomations autos 0 = .ok (some (k, f))) :
    checkValue (Json.obj [("automations", Json.arr autos)])
      = .ok ([missingFieldMsg k f], false)
    ∧ f ∈ requiredAutomationFields
    ∧ ∃ el, autos.get? k = some el ∧ pyContains f el = .ok false := by
  obtain ⟨_, el, hget, hm, hp⟩ := checkAutomations_spec autos 0 k f h
  refine ⟨?_, hm, el, by simpa using hget, hp⟩
  rw [checkValue_arr [("automations", Json.arr autos)] autos rfl]
  simp [perAutomationResult, h]

/-- C2 (witness): the amended claim at the concrete document
`{"automations": [{}]}`, whose element 0 lacks `id`. -/
theorem C2_witness :
    checkValue (Json.obj [("automations", Json.arr [Json.obj []])])
      = .ok ([missingFieldMsg 0 "id"], false)
    ∧ "id" ∈ requiredAutomationFields
    ∧ ∃ el, ([Json.obj []] : List Json).get? 0 = some el
        ∧ pyContains "id" el = .ok false :=
  C2_theorem [Json.obj []] 0 "id" rfl

/-- C3 (confirmed): on an object root, validation fails with the missing-key
message when `automations` is absent, fails with the not-an-array message
when it is present but not an array, and reaches the per-automation checks
exactly when it is an array. -/
theorem C3_theorem (fields : List (String × Json)) :
    (fields.lookup "automations" = none →
      checkValue (Json.obj fields)
        = .ok (["  ❌ Missing \x27automations\x27 key"], false))
    ∧ (∀ v, fields.lookup "automations" = some v → (∀ xs, v ≠ Json.arr xs) →
      checkValue (Json.obj fields)
        = .ok (["  ❌ \x27automations\x27 must be an array"], false))
    ∧ (∀ autos, fields.lookup "automations" = some (Json.arr autos) →
      checkValue (Json.obj fields) = perAutomationResult autos) :=
  ⟨fun h => checkValue_nokey fields h,
   fun v h hv => checkValue_notarr fields v h hv,
   fun autos h => checkValue_arr fields autos h⟩

/-- C3 (witness): the three branches at concrete roots — `{}`,
`{"automations": null}` and `{"automations": []}`. -/
theorem C3_witness :
    checkValue (Json.obj []) = .ok (["  ❌ Missing \x27automations\x27 key"], false)
    ∧ checkValue (Json.obj [("automations", Json.null)])
        = .ok (["  ❌ \x27automations\x27 must be an array"], false)
    ∧ checkValue (Json.obj [("automations", Json.arr [])]) = perAutomationResult [] :=
  ⟨(C3_theorem []).1 rfl,
   (C3_theorem [("automations", Json.null)]).2.1 Json.null rfl
     (fun _ hx => Json.noConfusion hx),
   (C3_theorem [("automations", Json.arr [])]).2.2 [] rfl⟩

/-- C4 (confirmed): when the file exists but its content is not valid JSON —
the decoder returns an error — `validate_example_json` returns the False
outcome carrying the decoder's message, and no exception escapes (the result
is `.ok`, the caught-`JSONDecodeError` branch). -/
theorem C4_theorem (decode : String → Except String Json)
    (fs : String → Option String) (filepath content err : String)
    (h1 : fs filepath = some content) (h2 : decode content = .error err) :
    validate_example_json decode fs filepath
      = .ok ([s!"Validating example JSON: {filepath}",
              s!"  ❌ Invalid JSON: {err}"], false) := by
  simp [validate_example_json, h1, h2]

/-- C4 (witness): the decoder failing on the text `not json`. -/
theorem C4_witness :
    validate_example_json (fun _ => .error "Expecting value: line 1 column 1 (char 0)")
      (fun _ => some "not json") "example_automation.json"
      = .ok (["Validating example JSON: example_automation.json",
              "  ❌ Invalid JSON: Expecting value: line 1 column 1 (char 0)"], false) :=
  C4_theorem _ _ "example_automation.json" "not json"
    "Expecting value: line 1 column 1 (char 0)" rfl rfl

/-- C5 (confirmed): the document `{"automations": []}` passes
`validate_example_json`'s structural checks (reporting 0 automations), and
the spec-modelled engine load of the same document yields the empty table,
of size 0. -/
theorem C5_theorem :
    checkValue (Json.obj [("automations", Json.arr [])])
      = .ok (["  ✅ Example JSON structure is valid (0 automations)"], true)
    ∧ Engine.loadDoc (Json.obj [("automations", Json.arr [])]) = .ok ([] : Engine.Table)
    ∧ ([] : Engine.Table).length = 0 :=
  ⟨rfl, rfl, rfl⟩

/-- C6 (confirmed, spec-modelled): for every table produced by a successful
load, loading the serialized table succeeds and reproduces the table exactly
— same ids, triggers, action kinds/parameters and order. -/
theorem C6_theorem (doc : Json) (t : Engine.Table)
    (h : Engine.loadDoc doc = .ok t) :
    Engine.loadDoc (Engine.serializeTable t) = .ok t := by
  obtain ⟨hnd, hwf⟩ := Engine.loadDoc_wf doc t h
  have hstep : Engine.loadDoc (Engine.serializeTable t)
      = Engine.loadAutomations [] 0 (t.map Engine.serializeAutomation) := rfl
  rw [hstep, Engine.loadAutomations_serialized t [] 0 hwf (by simpa using hnd)]
  simp

/-- C6 (witness): round-trip of the table loaded from
`{"automations": [{"id": "a", "trigger": null,
"actions": [{"kind": "x", "p": 1}]}]}`. -/
theorem C6_witness :
    Engine.loadDoc (Engine.serializeTable
      [⟨"a", Json.null, [⟨"x", [("p", Json.num 1)]⟩]⟩])
      = .ok [⟨"a", Json.null, [⟨"x", [("p", Json.num 1)]⟩]⟩] :=
  C6_theorem
    (Json.obj [("automations", Json.arr
      [Json.obj [("id", Json.str "a"), ("trigger", Json.null),
                 ("actions", Json.arr [Json.obj [("kind", Json.str "x"),
                                                 ("p", Json.num 1)]])]])])
    [⟨"a", Json.null, [⟨"x", [("p", Json.num 1)]⟩]⟩] rfl

/-- C7 (confirmed): the component declares exactly the two lifecycle trigger
classes, each templated over a single `std_string`; every `build_automation`
statement `to_code` emits passes exactly one string argument, named `data`
for the loaded trigger and `error` for the error trigger; and every load of
the spec-modelled engine fires an event of one of the two kinds
(`automation_loaded` or `json_error`), each carrying one string payload. -/
theorem C7_theorem :
    lifecycleTriggerDecls
      = [⟨"AutomationLoadedTrigger", ["std_string"]⟩,
         ⟨"JsonErrorTrigger", ["std_string"]⟩]
    ∧ (∀ config : Config, ((to_code config).all lifecycleArgsOk) = true)
    ∧ (∀ (decode : String → Except String Json) (old : Engine.Table) (text : String),
        (∃ s, (Engine.engineLoad decode old text).2.2 = Engine.Event.automationLoaded s)
        ∨ (∃ s, (Engine.engineLoad decode old text).2.2 = Engine.Event.jsonError s)) := by
  refine ⟨rfl, ?_, ?_⟩
  · intro config
    unfold to_code
    simp only [List.all_append,
      flatMapPairAll lifecycleArgsOk "AutomationLoadedTrigger" [("std_string", "data")]
        config.id (fun _ => rfl) (fun _ => rfl) config.on_automation_loaded,
      flatMapPairAll lifecycleArgsOk "JsonErrorTrigger" [("std_string", "error")]
        config.id (fun _ => rfl) (fun _ => rfl) config.on_json_error]
    cases config.json_data <;> rfl
  · intro decode old text
    unfold Engine.engineLoad
    cases decode text with
    | error e => right; exact ⟨_, rfl⟩
    | ok doc =>
      dsimp only
      cases Engine.loadDoc doc with
      | error m => right; exact ⟨m, rfl⟩
      | ok t => left; exact ⟨text, rfl⟩

/-- C8 (confirmed): `main` runs all five validation checks — each check's
header line appears in the output regardless of the others' results — and
combines their boolean results so that the exit code is 0 exactly when all
five returned True. -/
theorem C8_theorem (decode : String → Except String Json)
    (fs : String → Option String) (l1 l2 l3 l4 l5 : List String)
    (b1 b2 b3 b4 b5 : Bool)
    (h1 : validate_python_file fs "components/json_automation/__init__.py" = .ok (l1, b1))
    (h2 : validate_cpp_header fs "components/json_automation/json_automation.h"
      = .ok (l2, b2))
    (h3 : validate_cpp_implementation fs "components/json_automation/json_automation.cpp"
      = .ok (l3, b3))
    (h4 : validate_example_yaml fs "example.yaml" = .ok (l4, b4))
    (h5 : validate_example_json decode fs "example_automation.json" = .ok (l5, b5)) :
    mainValidator decode fs
      = .ok (l1 ++ l2 ++ l3 ++ l4 ++ l5, if b1 && b2 && b3 && b4 && b5 then 0 else 1)
    ∧ "Validating Python file: components/json_automation/__init__.py"
        ∈ l1 ++ l2 ++ l3 ++ l4 ++ l5
    ∧ "Validating C++ header: components/json_automation/json_automation.h"
        ∈ l1 ++ l2 ++ l3 ++ l4 ++ l5
    ∧ "Validating C++ implementation: components/json_automation/json_automation.cpp"
        ∈ l1 ++ l2 ++ l3 ++ l4 ++ l5
    ∧ "Validating example YAML: example.yaml" ∈ l1 ++ l2 ++ l3 ++ l4 ++ l5
    ∧ "Validating example JSON: example_automation.json" ∈ l1 ++ l2 ++ l3 ++ l4 ++ l5
    ∧ ((if b1 && b2 && b3 && b4 && b5 then (0 : Nat) else 1) = 0
        ↔ (b1 = true ∧ b2 = true ∧ b3 = true ∧ b4 = true ∧ b5 = true)) := by
  have m1 := validate_python_file_header fs _ l1 b1 h1
  have m2 := validate_cpp_header_header fs _ l2 b2 h2
  have m3 := validate_cpp_implementation_header fs _ l3 b3 h3
  have m4 := validate_example_yaml_header fs _ l4 b4 h4
  have m5 := validate_example_json_header decode fs _ l5 b5 h5
  refine ⟨?_, ?_, ?_, ?_, ?_, ?_, ?_⟩
  · simp [mainValidator, h1, h2, h3, h4, h5, Bind.bind, Except.bind, pure, Except.pure]
  · simp only [List.mem_append]; tauto
  · simp only [List.mem_append]; tauto
  · simp only [List.mem_append]; tauto
  · simp only [List.mem_append]; tauto
  · simp only [List.mem_append]; tauto
  · cases b1 <;> cases b2 <;> cases b3 <;> cases b4 <;> cases b5 <;> simp

/-- C8 (witness): a file system where every file is missing — all five
checks run (all five headers appear), all five fail, and the exit code
is 1. -/
theorem C8_witness :
    mainValidator (fun _ => .error "e") (fun _ => none)
      = .ok (["Validating Python file: components/json_automation/__init__.py",
              "  ❌ File not found: components/json_automation/__init__.py",
              "Validating C++ header: components/json_automation/json_automation.h",
              "  ❌ File not found: components/json_automation/json_automation.h",
              "Validating C++ implementation: components/json_automation/json_automation.cpp",
              "  ❌ File not found: components/json_automation/json_automation.cpp",
              "Validating example YAML: example.yaml",
              "  ❌ File not found: example.yaml",
              "Validating example JSON: example_automation.json",
              "  ❌ File not found: example_automation.json"], 1) :=
  (C8_theorem (fun _ => .error "e") (fun _ => none) _ _ _ _ _
    false false false false false rfl rfl rfl rfl rfl).1

/-- C9 (confirmed): `to_code` emits a `set_json_data` statement exactly when
the configuration carries `json_data`; the schema accepts a configuration
without `json_data` (no key is required), and the resulting component gets
no initial JSON assignment. -/
theorem C9_theorem :
    (∀ config : Config,
      ((to_code config).any isSetJsonDataStmt) = config.json_data.isSome)
    ∧ configSchemaAccepts [] = true
    ∧ (parseConfig [] 0).json_data = none
    ∧ ((to_code (parseConfig [] 0)).any isSetJsonDataStmt) = false := by
  refine ⟨?_, rfl, rfl, rfl⟩
  intro config
  unfold to_code
  simp only [List.any_append,
    flatMapPairAnyFalse isSetJsonDataStmt "AutomationLoadedTrigger"
      [("std_string", "data")] config.id (fun _ => rfl) (fun _ => rfl)
      config.on_automation_loaded,
    flatMapPairAnyFalse isSetJsonDataStmt "JsonErrorTrigger"
      [("std_string", "error")] config.id (fun _ => rfl) (fun _ => rfl)
      config.on_json_error]
  cases config.json_data <;> rfl

/-- C10 (confirmed): when the target file does not exist, each of the five
validation functions reports the file as not found and returns False — an
`.ok` result, never an exception. -/
theorem C10_theorem (decode : String → Except String Json)
    (fs : String → Option String) (p : String) (h : fs p = none) :
    validate_python_file fs p
      = .ok ([s!"Validating Python file: {p}", s!"  ❌ File not found: {p}"], false)
    ∧ validate_cpp_header fs p
      = .ok ([s!"Validating C++ header: {p}", s!"  ❌ File not found: {p}"], false)
    ∧ validate_cpp_implementation fs p
      = .ok ([s!"Validating C++ implementation: {p}",
              s!"  ❌ File not found: {p}"], false)
    ∧ validate_example_yaml fs p
      = .ok ([s!"Validating example YAML: {p}", s!"  ❌ File not found: {p}"], false)
    ∧ validate_example_json decode fs p
      = .ok ([s!"Validating example JSON: {p}", s!"  ❌ File not found: {p}"], false) := by
  refine ⟨?_, ?_, ?_, ?_, ?_⟩ <;>
    simp [validate_python_file, validate_cpp_header, validate_cpp_implementation,
      validate_example_yaml, validate_example_json, h]

/-- C10 (witness): the five validators on a missing file `missing.json`. -/
theorem C10_witness :
    validate_python_file (fun _ => none) "missing.json"
      = .ok (["Validating Python file: missing.json",
              "  ❌ File not found: missing.json"], false)
    ∧ validate_cpp_header (fun _ => none) "missing.json"
      = .ok (["Validating C++ header: missing.json",
              "  ❌ File not found: missing.json"], false)
    ∧ validate_cpp_implementation (fun _ => none) "missing.json"
      = .ok (["Validating C++ implementation: missing.json",
              "  ❌ File not found: missing.json"], false)
    ∧ validate_example_yaml (fun _ => none) "missing.json"
      = .ok (["Validating example YAML: missing.json",
              "  ❌ File not found: missing.json"], false)
    ∧ validate_example_json (fun _ => .error "e") (fun _ => none) "missing.json"
      = .ok (["Validating example JSON: missing.json",
              "  ❌ File not found: missing.json"], false) :=
  C10_theorem (fun _ => .error "e") (fun _ => none) "missing.json" rfl
